import Mathlib

/-!
Verification of the webhooks-extension event-listener reconciliation code
(`pkg/endpoints/webhook.go`).  Go strings are modelled as `List Char`;
the Go standard-library string helpers used by the source are defined
below, and each Go function of interest is translated into a pure Lean
function.  External collaborators (the trigger/binding stores, the git
provider lookup, the random source) are passed in as explicit oracles,
mirroring how the source consumes them.
-/

set_option maxRecDepth 20000

abbrev Str := List Char

def str (s : String) : Str := s.data

/-- Go `strings.ToLower` (the source only feeds ASCII URLs through it). -/
def toLowerS (s : Str) : Str := s.map Char.toLower

/-- Go `strings.TrimPrefix`: drops `p` when it is a leading segment of `s`. -/
def trimPrefixS (s p : Str) : Str := if p <+: s then s.drop p.length else s

/-- Go `strings.TrimSuffix`: drops `p` when it is a trailing segment of `s`. -/
def trimSuffixS (s p : Str) : Str := if p <:+ s then s.take (s.length - p.length) else s

/-- Go slice expression `s[a:b]` (the source only uses in-range indices). -/
def sliceS (s : Str) (a b : Nat) : Str := (s.take b).drop a

/-- Go `strings.Index(s, c)` for a one-character separator (first index). -/
def idxOfChar (s : Str) (c : Char) : Nat := s.findIdx (· == c)

/-- Go `strings.LastIndex(s, c)` for a one-character separator (last index). -/
def lastIdxOfChar (s : Str) (c : Char) : Nat :=
  s.length - 1 - s.reverse.findIdx (· == c)

/-!
## Git URL Normalizer (`getGitValues`, `compareGitRepoNames`)
-/

/--
Translation of `getGitValues` (webhook.go:491-520).  Returns
`(gitServer, gitOwner, gitRepo)`; `none` models the `MalformedURL` error.
Note the source prepends the scheme back onto `gitServer`.
-/
def getGitValues (url : Str) : Option (Str × Str × Str) :=
  let lower := toLowerS url
  let rp :=
    if url = [] then ([], ([] : Str))
    else if (str "https://") <:+: lower then (trimPrefixS lower (str "https://"), str "https://")
    else (trimPrefixS lower (str "http://"), str "http://")
  let repoURL := rp.1
  let pre := rp.2
  if repoURL.count '/' < 2 then none
  else
    let repoURL := trimSuffixS repoURL (str "/")
    let i := idxOfChar repoURL '/'
    let j := lastIdxOfChar repoURL '/'
    let gitServer := pre ++ repoURL.take i
    let gitOwner := sliceS repoURL (i + 1) j
    let gitRepo :=
      if (str ".git") <:+ lower then sliceS repoURL (j + 1) (repoURL.length - 4)
      else repoURL.drop (j + 1)
    some (gitServer, gitOwner, gitRepo)

/-- Translation of `compareGitRepoNames` (webhook.go:197-210). -/
def compareGitRepoNames (url1 url2 : Str) : Option Bool :=
  match getGitValues url1, getGitValues url2 with
  | none, _ => none
  | _, none => none
  | some a, some b => some (decide (a = b))

/-!
## Data model: params, bindings, triggers, webhooks
-/

/-- An interceptor header entry (`pipelinesv1alpha1.Param` with a string value). -/
structure Param where
  name : Str
  value : Str
deriving DecidableEq

/-- An `EventListenerBinding`: the source sets only `Ref`, leaving `Name` empty
(`newTrigger`, webhook.go:283-292), while `deleteFromEventListener` reads `Name`. -/
structure Binding where
  name : Str
  ref : Str
deriving DecidableEq

/-- An `EventListenerTrigger`.  The source only ever reads or writes
`Interceptors[0].Webhook.Header`, so the single interceptor's header list is
carried directly. -/
structure Trigger where
  name : Str
  bindings : List Binding
  template : Str
  headers : List Param
deriving DecidableEq

/-- Go zero value `v1alpha1.EventListenerTrigger{}`. -/
def Trigger.empty : Trigger := ⟨[], [], [], []⟩

/-- The `webhook` request record (the fields the modelled code reads). -/
structure Webhook where
  name : Str
  nspace : Str
  pipeline : Str
  gitRepositoryURL : Str
  accessTokenRef : Str
  pullTask : Str
  dockerRegistry : Str
deriving DecidableEq

/-!
## Trigger Builder (`newTrigger`) and the actions header
-/

/-- The package-level `actions` param (webhook.go:55). -/
def actionsParam : Param := ⟨str "Wext-Incoming-Actions", str "opened,reopened,synchronize"⟩

/-- Translation of `newTrigger` (webhook.go:280-315). -/
def newTrigger (name bindingName templateName repoURL event secretName extraBindingName : Str) :
    Trigger :=
  { name := name
    bindings := [⟨[], bindingName⟩, ⟨[], extraBindingName⟩]
    template := templateName
    headers :=
      [⟨str "Wext-Trigger-Name", name⟩,
       ⟨str "Wext-Repository-Url", repoURL⟩,
       ⟨str "Wext-Incoming-Event", event⟩,
       ⟨str "Wext-Secret-Name", secretName⟩] }

/-!
## Monitor Deduplicator (`doesMonitorExist`, `generateMonitorTriggerName`)
-/

/--
The inner header scan of `doesMonitorExist` (webhook.go:239-252) against a
target URL `u`: `none` models the early `return false, ""` on a
`compareGitRepoNames` error, `some true` a match, `some false` exhaustion.
-/
def scanHeadersFor (u : Str) : List Param → Option Bool
  | [] => some false
  | h :: rest =>
    if h.name = str "Wext-Repository-Url" then
      match compareGitRepoNames h.value u with
      | none => none
      | some true => some true
      | some false => scanHeadersFor u rest
    else scanHeadersFor u rest

/-- Translation of `doesMonitorExist` (webhook.go:232-260). -/
def doesMonitorExist (monPfx : Str) (w : Webhook) : List Trigger → Bool × Str
  | [] => (false, [])
  | t :: rest =>
    if monPfx <+: t.name then
      match scanHeadersFor w.gitRepositoryURL t.headers with
      | none => (false, [])
      | some true => (true, t.name)
      | some false => doesMonitorExist monPfx w rest
    else doesMonitorExist monPfx w rest

/--
The retry loop of `generateMonitorTriggerName` (webhook.go:212-230).
`rnd i % 10000` models the i-th draw of `rand.Intn(10000)`; the Go loop has
no retry bound, so the recursion carries explicit `fuel` and `none` models a
run that has not yet found a free name.
-/
def genLoop (pfx : Str) (rnd : Nat → Nat) (existing : List Trigger) : Nat → Nat → Option Str
  | _, 0 => none
  | i, fuel + 1 =>
    let cand := pfx ++ str (Nat.repr (rnd i % 10000))
    if existing.any (fun t => t.name = cand) then genLoop pfx rnd existing (i + 1) fuel
    else some cand

/-- Translation of `generateMonitorTriggerName` (webhook.go:212-230). -/
def generateMonitorTriggerName (pfx : Str) (rnd : Nat → Nat) (existing : List Trigger)
    (fuel : Nat) : Option Str :=
  genLoop pfx rnd existing 0 fuel

/-- The monitor-name stem `{owner}.{repo}-` computed by `createWebhook`
(webhook.go:635) and `deleteWebhook` (webhook.go:853). -/
def monitorStem (owner repo : Str) : Str := owner ++ str "." ++ repo ++ str "-"

/-!
## Binding creation and the event-listener mutations
-/

/-- Translation of `getMonitorBindingName` (webhook.go:262-278).  The
`utils.GetGitProviderAndAPIURL` collaborator lives outside this package and is
passed in as the oracle `provider` (`none` models its error return). -/
def getMonitorBindingName (provider : Str → Option Str) (repoURL monitorTask : Str) :
    Option Str :=
  let mt := if monitorTask = [] then str "monitor-task" else monitorTask
  if mt = str "monitor-task" then
    match provider repoURL with
    | none => none
    | some p => some (mt ++ str "-" ++ p ++ str "-binding")
  else some (mt ++ str "-binding")

/-- Translation of `createBindings` (webhook.go:411-443): the store assigns the
actual object name from the `GenerateName` base `wext-<name>-`
(`GetTriggerBindingObjectMeta`); `gen` is that store oracle.  Returns the pair
of actual binding names the Go function returns (second is `""` when no
monitor binding is created). -/
def createBindings (w : Webhook) (monitorBindingName : Str) (createMonitorBinding : Bool)
    (gen : Str → Str) : Str × Str :=
  let hookName := gen (str "wext-" ++ w.name ++ str "-")
  if createMonitorBinding then
    (hookName, gen (str "wext-" ++ monitorBindingName ++ str "-"))
  else (hookName, [])

/-- The outcome of a successful `createEventListener`/`updateEventListener`
call: the trigger list written to the store, the hook binding created, and the
monitor binding if one was created. -/
structure ELMutation where
  triggers : List Trigger
  hookBinding : Str
  monitorBinding : Option Str
deriving DecidableEq

/-- Translation of `createEventListener` (webhook.go:68-130): builds the push,
pull-request and monitor triggers and creates the collection holding exactly
those three.  `none` models an aborting collaborator error. -/
def createEventListener (provider : Str → Option Str) (gen : Str → Str) (rnd : Nat → Nat)
    (fuel : Nat) (w : Webhook) (monPfx : Str) : Option ELMutation :=
  match getMonitorBindingName provider w.gitRepositoryURL w.pullTask with
  | none => none
  | some monitorBindingName =>
    let exts := createBindings w monitorBindingName true gen
    let pushTrigger := newTrigger (w.name ++ str "-" ++ w.nspace ++ str "-push-event")
      (w.pipeline ++ str "-push-binding") (w.pipeline ++ str "-template")
      w.gitRepositoryURL (str "push, Push Hook, Tag Push Hook") w.accessTokenRef exts.1
    let pr := newTrigger (w.name ++ str "-" ++ w.nspace ++ str "-pullrequest-event")
      (w.pipeline ++ str "-pullrequest-binding") (w.pipeline ++ str "-template")
      w.gitRepositoryURL (str "pull_request, Merge Request Hook") w.accessTokenRef exts.1
    let pullRequestTrigger := { pr with headers := pr.headers ++ [actionsParam] }
    match generateMonitorTriggerName monPfx rnd [] fuel with
    | none => none
    | some monitorTriggerName =>
      let mt := newTrigger monitorTriggerName monitorBindingName
        (w.pullTask ++ str "-template") w.gitRepositoryURL
        (str "pull_request, Merge Request Hook") w.accessTokenRef exts.2
      let monitorTrigger := { mt with headers := mt.headers ++ [actionsParam] }
      some ⟨[pushTrigger, pullRequestTrigger, monitorTrigger], exts.1, some exts.2⟩

/-- Translation of `updateEventListener` (webhook.go:136-195): appends the new
push and pull-request triggers and, when no monitor for this repository is
found by `doesMonitorExist`, a freshly named monitor trigger as well. -/
def updateEventListener (provider : Str → Option Str) (gen : Str → Str) (rnd : Nat → Nat)
    (fuel : Nat) (triggers : List Trigger) (w : Webhook) (monPfx : Str) : Option ELMutation :=
  match getMonitorBindingName provider w.gitRepositoryURL w.pullTask with
  | none => none
  | some monitorBindingName =>
    let existingMonitorFound := (doesMonitorExist monPfx w triggers).1
    let exts := createBindings w monitorBindingName (!existingMonitorFound) gen
    let newPushTrigger := newTrigger (w.name ++ str "-" ++ w.nspace ++ str "-push-event")
      (w.pipeline ++ str "-push-binding") (w.pipeline ++ str "-template")
      w.gitRepositoryURL (str "push, Push Hook, Tag Push Hook") w.accessTokenRef exts.1
    let pr := newTrigger (w.name ++ str "-" ++ w.nspace ++ str "-pullrequest-event")
      (w.pipeline ++ str "-pullrequest-binding") (w.pipeline ++ str "-template")
      w.gitRepositoryURL (str "pull_request, Merge Request Hook") w.accessTokenRef exts.1
    let newPullRequestTrigger := { pr with headers := pr.headers ++ [actionsParam] }
    let ts1 := triggers ++ [newPushTrigger, newPullRequestTrigger]
    if existingMonitorFound then some ⟨ts1, exts.1, none⟩
    else
      match generateMonitorTriggerName monPfx rnd ts1 fuel with
      | none => none
      | some monitorTriggerName =>
        let mt := newTrigger monitorTriggerName monitorBindingName
          (w.pullTask ++ str "-template") w.gitRepositoryURL
          (str "pull_request, Merge Request Hook") w.accessTokenRef exts.2
        let newMonitor := { mt with headers := mt.headers ++ [actionsParam] }
        some ⟨ts1 ++ [newMonitor], exts.1, some exts.2⟩

/-- One serialized create operation, with its own random draws and fuel. -/
structure CreateCall where
  w : Webhook
  rnd : Nat → Nat
  fuel : Nat

/-- The event-listener effect of one registration inside `createWebhook`
(webhook.go:627-653): derive the monitor-name stem `{owner}.{repo}-` from
`getGitValues`, then update the collection when it exists and create it
otherwise.  The collection state is the trigger list, `[]` standing for the
absent event listener (a present listener always holds triggers). -/
def elRegister (provider : Str → Option Str) (gen : Str → Str) (c : CreateCall)
    (ts : List Trigger) : Option (List Trigger) :=
  match getGitValues c.w.gitRepositoryURL with
  | none => none
  | some v =>
    let monPfx := monitorStem v.2.1 v.2.2
    if ts = [] then (createEventListener provider gen c.rnd c.fuel c.w monPfx).map (·.triggers)
    else (updateEventListener provider gen c.rnd c.fuel ts c.w monPfx).map (·.triggers)

/-- Fold a list of serialized create operations from a given collection state. -/
def runFrom (provider : Str → Option Str) (gen : Str → Str) (st : Option (List Trigger)) :
    List CreateCall → Option (List Trigger)
  | [] => st
  | c :: rest => runFrom provider gen (st.bind (elRegister provider gen c)) rest

/-- A serialized sequence of creates starting from the absent collection. -/
def runCreates (provider : Str → Option Str) (gen : Str → Str) (calls : List CreateCall) :
    Option (List Trigger) :=
  runFrom provider gen (some []) calls

/-!
## Trigger-set part of `deleteFromEventListener`
-/

/-- The loop state of `deleteFromEventListener` (webhook.go:1002-1046).
`bindingsToRemove` models the Go map (only key membership is ever used). -/
structure DelState where
  newTriggers : List Trigger
  bindingsToRemove : List Str
  monitorTrigger : Trigger
  actualMonitorBindingName : Str
  triggersOnRepo : Nat
  triggersDeleted : Nat
deriving DecidableEq

/-- Insert a key into the modelled `bindingsToRemove` map. -/
def mapInsert (m : List Str) (k : Str) : List Str := if k ∈ m then m else m ++ [k]

/-- One iteration of the trigger loop in `deleteFromEventListener`
(webhook.go:1012-1046), given the `doesMonitorExist` result and the
registration-derived data. -/
def delStep (found : Bool) (mName : Str) (toRemove : List Str) (w : Webhook)
    (monitorBindingName : Str) (s : DelState) (t : Trigger) : DelState :=
  if found = true ∧ t.name = mName then
    { s with
      monitorTrigger := t
      actualMonitorBindingName :=
        t.bindings.foldl
          (fun acc b =>
            if (str "wext-" ++ monitorBindingName ++ str "-") <+: b.name then b.name else acc)
          s.actualMonitorBindingName }
  else
    let onRepo := s.triggersOnRepo +
      t.headers.countP
        (fun p => decide (p.name = str "Wext-Repository-Url" ∧ p.value = w.gitRepositoryURL))
    if t.name ∈ toRemove then
      { s with
        triggersOnRepo := onRepo
        triggersDeleted := s.triggersDeleted + 1
        bindingsToRemove :=
          t.bindings.foldl
            (fun acc b =>
              if (str "wext-" ++ w.name ++ str "-") <+: b.name then mapInsert acc b.name else acc)
            s.bindingsToRemove }
    else { s with triggersOnRepo := onRepo, newTriggers := s.newTriggers ++ [t] }

/-- Result of the pure trigger-set computation of `deleteFromEventListener`. -/
structure DelResult where
  newTriggers : List Trigger
  bindingsToRemove : List Str
  actualMonitorBindingName : Str
  triggersOnRepo : Nat
  triggersDeleted : Nat
deriving DecidableEq

/-- Translation of the trigger-set core of `deleteFromEventListener`
(webhook.go:986-1054): partition the current triggers, count
`triggersOnRepo`/`triggersDeleted`, and either retain the monitor trigger or
mark its binding for removal.  `name` is the registration-derived stem
`{name}-{namespace}`; `monitorBindingName` is the `getMonitorBindingName`
result.  The subsequent store calls (collection update/delete, binding
deletions, ingress/route teardown) are collaborator effects outside this
pure core. -/
def deleteFromEventListenerCore (name monPfx monitorBindingName : Str) (w : Webhook)
    (currentTriggers : List Trigger) : DelResult :=
  let toRemove := [name ++ str "-push-event", name ++ str "-pullrequest-event"]
  let dme := doesMonitorExist monPfx w currentTriggers
  let s0 : DelState := ⟨[], [], Trigger.empty, [], 0, 0⟩
  let s := currentTriggers.foldl (delStep dme.1 dme.2 toRemove w monitorBindingName) s0
  if s.triggersOnRepo > s.triggersDeleted then
    ⟨s.newTriggers ++ [s.monitorTrigger], s.bindingsToRemove, s.actualMonitorBindingName,
      s.triggersOnRepo, s.triggersDeleted⟩
  else
    ⟨s.newTriggers, mapInsert s.bindingsToRemove s.actualMonitorBindingName,
      s.actualMonitorBindingName, s.triggersOnRepo, s.triggersDeleted⟩

/-!
## Webhook listing, PipelineRun cleanup
-/

/-- The filter inside `getHooksForRepo` (webhook.go:1110-1124): plain string
equality of the stored repository URL against the query URL. -/
def hooksForRepo (allHooks : List Webhook) (gitURL : Str) : List Webhook :=
  allHooks.filter (fun hook => decide (hook.gitRepositoryURL = gitURL))

/-- A PipelineRun as `deletePipelineRuns` reads it: its pipeline reference and
its `webhooks.tekton.dev/gitServer|gitOrg|gitRepo` labels. -/
structure PipelineRun where
  name : Str
  pipelineRef : Str
  gitServer : Str
  gitOrg : Str
  gitRepo : Str
deriving DecidableEq

/-- The matching predicate of `deletePipelineRuns` (webhook.go:1234-1245):
rebuild `https://{server}/{org}/{repo}` from the labels and compare it with
the query URL after trimming a `.git` suffix and lowercasing both sides. -/
def pipelineRunMatches (gitRepoURL : Str) (p : PipelineRun) : Bool :=
  let foundRepoURL := str "https://" ++ p.gitServer ++ str "/" ++ p.gitOrg ++ str "/" ++ p.gitRepo
  decide (toLowerS (trimSuffixS gitRepoURL (str ".git"))
    = toLowerS (trimSuffixS foundRepoURL (str ".git")))

/-- The PipelineRuns `deletePipelineRuns` deletes (webhook.go:1223-1260). -/
def deletePipelineRunsSelect (gitRepoURL pipeline : Str) (runs : List PipelineRun) :
    List PipelineRun :=
  runs.filter (fun p => decide (p.pipelineRef = pipeline) && pipelineRunMatches gitRepoURL p)

/-!
## The `deleteWebhook` handler decision flow
-/

/-- Go `strconv.ParseBool`. -/
def parseBool (s : Str) : Option Bool :=
  if s ∈ [str "1", str "t", str "T", str "true", str "TRUE", str "True"] then some true
  else if s ∈ [str "0", str "f", str "F", str "false", str "FALSE", str "False"] then some false
  else none

/-- HTTP response of the delete handler plus whether any mutating collaborator
call (provider webhook removal, PipelineRun purge, event-listener update) was
attempted before responding. -/
structure DeleteOutcome where
  status : Nat
  mutated : Bool
deriving DecidableEq

/-- Collaborator outcomes consumed by `deleteWebhook`. -/
structure DeleteEnv where
  hooksRes : Option (List Webhook)
  removeWebhookOk : Bool
  deleteFromELOk : Bool

/-- The per-hook loop of `deleteWebhook` (webhook.go:856-885): on a
name+namespace match, remove the provider webhook when it is the last hook,
optionally purge PipelineRuns (errors ignored by the source), then update the
event listener; an error inside the loop returns 500 immediately, a completed
match writes 204 and keeps iterating. -/
def deleteWebhookLoop (name nspace : Str) (whole : List Webhook) (env : DeleteEnv) :
    List Webhook → Bool → Bool × Option Nat
  | [], found => (found, none)
  | hook :: rest, found =>
    if hook.name = name ∧ hook.nspace = nspace then
      if whole.length = 1 ∧ env.removeWebhookOk = false then (true, some 500)
      else if env.deleteFromELOk = false then (true, some 500)
      else deleteWebhookLoop name nspace whole env rest true
    else deleteWebhookLoop name nspace whole env rest found

/-- Translation of the `deleteWebhook` handler decision flow
(webhook.go:799-894). -/
def deleteWebhookModel (name repo nspace deletePipelineRunsParam : Str) (env : DeleteEnv) :
    DeleteOutcome :=
  let parsed := if deletePipelineRunsParam = [] then some false
    else parseBool deletePipelineRunsParam
  match parsed with
  | none => ⟨500, false⟩
  | some _ =>
    if nspace = [] ∨ repo = [] then ⟨400, false⟩
    else
      match env.hooksRes with
      | none => ⟨404, false⟩
      | some webhooks =>
        if webhooks.length < 1 then ⟨400, false⟩
        else
          match getGitValues repo with
          | none => ⟨500, false⟩
          | some _ =>
            match deleteWebhookLoop name nspace webhooks env webhooks false with
            | (found, some st) => ⟨st, found⟩
            | (true, none) => ⟨204, true⟩
            | (false, none) => ⟨404, false⟩

/-!
## The `createWebhook` handler decision flow
-/

/-- Result of the event-listener `Get` in `createWebhook` (webhook.go:619-625):
a non-not-found error, a not-found miss, or the existing listener. -/
inductive ELGet where
  | errored : ELGet
  | notFound : ELGet
  | found : List Trigger → ELGet

/-- Collaborator outcomes and defaults consumed by `createWebhook`. -/
structure CreateEnv where
  defaultDockerRegistry : Str
  templatesOK : Bool
  elGet : ELGet
  platformSet : Bool
  ingressOk : Bool
  routeOk : Bool
  addWebhookOk : Bool
  provider : Str → Option Str
  gen : Str → Str
  rnd : Nat → Nat
  fuel : Nat

/-- HTTP response of the create handler, whether the external-provider
`AddWebhook` call was made, and whether one of the duplicate/conflict checks
fired. -/
structure CreateOutcome where
  status : Nat
  addWebhookCalled : Bool
  conflict : Bool
deriving DecidableEq

/-- Translation of the `createWebhook` handler decision flow
(webhook.go:523-719), after a successfully parsed request entity.
`hooksRes` is the `getHooksForRepo` return: the source ignores its error and
uses the accompanying `nil` slice, modelled by `Option.getD` with `[]`. -/
def createWebhookModel (env : CreateEnv) (hooksRes : Option (List Webhook)) (wIn : Webhook) :
    CreateOutcome :=
  let w0 := { wIn with gitRepositoryURL := trimSuffixS wIn.gitRepositoryURL (str ".git") }
  let w1 := { w0 with pullTask := if w0.pullTask = [] then str "monitor-task" else w0.pullTask }
  if w1.name ≠ [] ∧ w1.name.length > 57 then ⟨400, false, false⟩
  else
    let dr0 := trimPrefixS (trimPrefixS w1.dockerRegistry (str "https://")) (str "http://")
    let w := { w1 with dockerRegistry :=
      if dr0 = [] ∧ env.defaultDockerRegistry ≠ [] then env.defaultDockerRegistry else dr0 }
    if w.nspace = [] then ⟨400, false, false⟩
    else if ¬ (str "http") <+: w.gitRepositoryURL then ⟨400, false, false⟩
    else if w.gitRepositoryURL.count '/' + 1 < 4 then ⟨400, false, false⟩
    else
      let hooks := hooksRes.getD []
      if hooks.any (fun h => h.name = w.name) ∨
          hooks.any (fun h => h.pipeline = w.pipeline ∧ h.nspace = w.nspace) ∨
          hooks.any (fun h => h.pullTask ≠ w.pullTask) then ⟨400, false, true⟩
      else if env.templatesOK = false then ⟨400, false, false⟩
      else
        match env.elGet with
        | ELGet.errored => ⟨500, false, false⟩
        | elRes =>
          match getGitValues w.gitRepositoryURL with
          | none => ⟨500, false, false⟩
          | some v =>
            let monPfx := monitorStem v.2.1 v.2.2
            let elOk :=
              match elRes with
              | ELGet.found ts =>
                (updateEventListener env.provider env.gen env.rnd env.fuel ts w monPfx).isSome
              | _ =>
                (createEventListener env.provider env.gen env.rnd env.fuel w monPfx).isSome &&
                  (if env.platformSet then env.routeOk else env.ingressOk)
            if elOk = false then ⟨500, false, false⟩
            else if hooks.length = 0 then
              if env.addWebhookOk then ⟨201, true, false⟩ else ⟨500, true, false⟩
            else ⟨201, false, false⟩

/-!
## Helper lemmas
-/

theorem genLoop_some {pfx : Str} {rnd : Nat → Nat} {existing : List Trigger} {i fuel : Nat}
    {out : Str} (h : genLoop pfx rnd existing i fuel = some out) :
    (∃ k, k < 10000 ∧ out = pfx ++ str (Nat.repr k)) ∧ ∀ t ∈ existing, t.name ≠ out := by
  induction fuel generalizing i with
  | zero => simp [genLoop] at h
  | succ n ih =>
    rw [genLoop] at h
    by_cases hc : existing.any (fun t => t.name = pfx ++ str (Nat.repr (rnd i % 10000)))
    · rw [if_pos hc] at h
      exact ih h
    · rw [if_neg hc] at h
      obtain rfl : pfx ++ str (Nat.repr (rnd i % 10000)) = out := by
        simpa using h
      refine ⟨⟨rnd i % 10000, Nat.mod_lt _ (by norm_num), rfl⟩, ?_⟩
      intro t ht heq
      exact hc (List.any_eq_true.2 ⟨t, ht, by simp [heq]⟩)

theorem generateMonitorTriggerName_some {pfx : Str} {rnd : Nat → Nat}
    {existing : List Trigger} {fuel : Nat} {out : Str}
    (h : generateMonitorTriggerName pfx rnd existing fuel = some out) :
    (∃ k, k < 10000 ∧ out = pfx ++ str (Nat.repr k)) ∧ ∀ t ∈ existing, t.name ≠ out :=
  genLoop_some h

/-!
## Claim C9: generated monitor trigger names never collide
-/

/-- C9: whenever `generateMonitorTriggerName` returns a name, that name is the
given stem followed by a decimal integer in `[0, 10000)` and differs from the
name of every trigger in the supplied list. -/
theorem C9_generated_name_fresh (pfx : Str) (rnd : Nat → Nat) (existing : List Trigger)
    (fuel : Nat) (out : Str)
    (h : generateMonitorTriggerName pfx rnd existing fuel = some out) :
    (∃ k, k < 10000 ∧ out = pfx ++ str (Nat.repr k)) ∧ ∀ t ∈ existing, t.name ≠ out :=
  generateMonitorTriggerName_some h

/-- C9 witness: a run that collides once and then returns a fresh name. -/
theorem C9_generated_name_fresh_witness :
    (∃ k, k < 10000 ∧ str "o.r-6" = str "o.r-" ++ str (Nat.repr k)) ∧
      ∀ t ∈ [Trigger.mk (str "o.r-5") [] [] []], t.name ≠ str "o.r-6" :=
  C9_generated_name_fresh (str "o.r-") (fun i => 5 + i) [Trigger.mk (str "o.r-5") [] [] []] 2
    (str "o.r-6") (by decide)

/-!
## Claim C4: when `getGitValues` fails, and what it strips
-/

/-- The lowercased URL after the scheme-stripping step of `getGitValues`
(webhook.go:492-503); the parse fails exactly when this carries fewer than
two slashes. -/
def schemeTrimmed (u : Str) : Str :=
  if u = [] then []
  else if (str "https://") <:+: toLowerS u then trimPrefixS (toLowerS u) (str "https://")
  else trimPrefixS (toLowerS u) (str "http://")

/-- C4 counterexample: a URL with no scheme at all parses successfully (the
claim requires it to fail), and on success the server component still carries
a scheme (the claim requires the scheme to have been stripped). -/
theorem C4_counterexample :
    (¬ (str "http://") <+: str "github.com/owner/repo") ∧
    (¬ (str "https://") <+: str "github.com/owner/repo") ∧
    getGitValues (str "github.com/owner/repo")
      = some (str "http://github.com", str "owner", str "repo") ∧
    getGitValues (str "https://github.com/o/r")
      = some (str "https://github.com", str "o", str "r") ∧
    (str "https://") <+: str "https://github.com" := by decide

/-- C4 amended: `getGitValues` fails exactly when fewer than two
`/`-separated separators remain after lowercasing and the scheme-stripping
step (no scheme needs to be present), and on success the returned server
component is the scheme stem prepended to the host (the scheme is not
stripped from the result). -/
theorem C4_parse_failure_characterised (u : Str) :
    (getGitValues u = none ↔ (schemeTrimmed u).count '/' < 2) ∧
    (∀ s o r, getGitValues u = some (s, o, r) →
      ∃ host, s = str "https://" ++ host ∨ s = str "http://" ++ host) := by
  unfold getGitValues schemeTrimmed
  by_cases h0 : u = []
  · subst h0
    refine ⟨by simp [toLowerS], ?_⟩
    intro s o r h
    simp [toLowerS, List.count_nil] at h
  · by_cases h1 : (str "https://") <:+: toLowerS u
    · simp only [if_neg h0, if_pos h1]
      by_cases h2 : (trimPrefixS (toLowerS u) (str "https://")).count '/' < 2
      · exact ⟨by simp [h2], by simp [h2]⟩
      · refine ⟨by simp [h2], ?_⟩
        intro s o r h
        simp only [if_neg h2] at h
        have h' := Option.some.inj h
        exact ⟨_, Or.inl (congrArg Prod.fst h').symm⟩
    · simp only [if_neg h0, if_neg h1]
      by_cases h2 : (trimPrefixS (toLowerS u) (str "http://")).count '/' < 2
      · exact ⟨by simp [h2], by simp [h2]⟩
      · refine ⟨by simp [h2], ?_⟩
        intro s o r h
        simp only [if_neg h2] at h
        have h' := Option.some.inj h
        exact ⟨_, Or.inr (congrArg Prod.fst h').symm⟩

/-- C4 amended witness: the failure characterisation and the success shape at
concrete URLs. -/
theorem C4_parse_failure_characterised_witness :
    (getGitValues (str "https://github.com") = none) ∧
    (∃ host, str "https://github.com" = str "https://" ++ host ∨
      str "https://github.com" = str "http://" ++ host) :=
  ⟨(C4_parse_failure_characterised (str "https://github.com")).1.mpr (by decide),
    (C4_parse_failure_characterised (str "https://github.com/o/r")).2
      (str "https://github.com") (str "o") (str "r") (by decide)⟩

/-!
## Claim C8: which triggers get the `Wext-Incoming-Actions` header
-/

/-- The four fixed interceptor headers every trigger is built with. -/
def fixedHeaders (name repoURL event secretName : Str) : List Param :=
  [⟨str "Wext-Trigger-Name", name⟩,
   ⟨str "Wext-Repository-Url", repoURL⟩,
   ⟨str "Wext-Incoming-Event", event⟩,
   ⟨str "Wext-Secret-Name", secretName⟩]

/-- C8 counterexample: in a concrete `createEventListener` run, only the
pull-request and monitor triggers carry the `Wext-Incoming-Actions` header;
the push trigger does not, although the claim says every constructed trigger
does. -/
theorem C8_counterexample :
    ((createEventListener (fun _ => some (str "github")) (fun s => s ++ str "0") (fun _ => 7) 1
        ⟨str "wh", str "ns", str "pl", str "https://g.com/o/r", str "tok",
          str "monitor-task", []⟩ (str "o.r-")).map
      (fun m => m.triggers.map (fun t => decide (actionsParam ∈ t.headers))))
      = some [false, true, true] := by decide

/-- C8 amended: both in `createEventListener` and in `updateEventListener`,
the pull-request and monitor triggers carry the four fixed headers followed by
the appended `Wext-Incoming-Actions` header valued
`opened,reopened,synchronize`, while the push trigger carries exactly the four
fixed headers and no actions header. -/
theorem C8_actions_header_on_pull_and_monitor :
    actionsParam = ⟨str "Wext-Incoming-Actions", str "opened,reopened,synchronize"⟩ ∧
    (∀ provider gen rnd fuel (w : Webhook) monPfx m,
      createEventListener provider gen rnd fuel w monPfx = some m →
      ∃ mtn, m.triggers.map (fun t => (t.name, t.headers))
        = [(w.name ++ str "-" ++ w.nspace ++ str "-push-event",
            fixedHeaders (w.name ++ str "-" ++ w.nspace ++ str "-push-event")
              w.gitRepositoryURL (str "push, Push Hook, Tag Push Hook") w.accessTokenRef),
           (w.name ++ str "-" ++ w.nspace ++ str "-pullrequest-event",
            fixedHeaders (w.name ++ str "-" ++ w.nspace ++ str "-pullrequest-event")
              w.gitRepositoryURL (str "pull_request, Merge Request Hook") w.accessTokenRef
              ++ [actionsParam]),
           (mtn,
            fixedHeaders mtn w.gitRepositoryURL (str "pull_request, Merge Request Hook")
              w.accessTokenRef ++ [actionsParam])]) ∧
    (∀ provider gen rnd fuel ts (w : Webhook) monPfx m,
      updateEventListener provider gen rnd fuel ts w monPfx = some m →
      ∃ restHs, m.triggers.map (fun t => (t.name, t.headers))
        = ts.map (fun t => (t.name, t.headers))
          ++ [(w.name ++ str "-" ++ w.nspace ++ str "-push-event",
              fixedHeaders (w.name ++ str "-" ++ w.nspace ++ str "-push-event")
                w.gitRepositoryURL (str "push, Push Hook, Tag Push Hook") w.accessTokenRef),
             (w.name ++ str "-" ++ w.nspace ++ str "-pullrequest-event",
              fixedHeaders (w.name ++ str "-" ++ w.nspace ++ str "-pullrequest-event")
                w.gitRepositoryURL (str "pull_request, Merge Request Hook") w.accessTokenRef
                ++ [actionsParam])]
          ++ restHs ∧
        ∀ nh ∈ restHs, nh.2
          = fixedHeaders nh.1 w.gitRepositoryURL (str "pull_request, Merge Request Hook")
              w.accessTokenRef ++ [actionsParam]) := by
  refine ⟨rfl, ?_, ?_⟩
  · intro provider gen rnd fuel w monPfx m hc
    unfold createEventListener at hc
    cases hb : getMonitorBindingName provider w.gitRepositoryURL w.pullTask with
    | none => rw [hb] at hc; exact absurd hc (by simp)
    | some mbn =>
      rw [hb] at hc
      simp only [] at hc
      cases hg : generateMonitorTriggerName monPfx rnd [] fuel with
      | none => rw [hg] at hc; exact absurd hc (by simp)
      | some mtn =>
        rw [hg] at hc
        simp only [Option.some.injEq] at hc
        subst hc
        exact ⟨mtn, by simp [newTrigger, fixedHeaders]⟩
  · intro provider gen rnd fuel ts w monPfx m hc
    unfold updateEventListener at hc
    cases hb : getMonitorBindingName provider w.gitRepositoryURL w.pullTask with
    | none => rw [hb] at hc; exact absurd hc (by simp)
    | some mbn =>
      rw [hb] at hc
      simp only [] at hc
      by_cases hf : (doesMonitorExist monPfx w ts).1
      · rw [if_pos hf] at hc
        simp only [Option.some.injEq] at hc
        subst hc
        exact ⟨[], by simp [newTrigger, fixedHeaders], by simp⟩
      · rw [if_neg hf] at hc
        cases hg : generateMonitorTriggerName monPfx rnd _ fuel with
        | none => rw [hg] at hc; exact absurd hc (by simp)
        | some mtn =>
          rw [hg] at hc
          simp only [Option.some.injEq] at hc
          subst hc
          refine ⟨[(mtn, fixedHeaders mtn w.gitRepositoryURL
            (str "pull_request, Merge Request Hook") w.accessTokenRef ++ [actionsParam])],
            by simp [newTrigger, fixedHeaders], ?_⟩
          intro nh hnh
          simp only [List.mem_singleton] at hnh
          subst hnh
          rfl

/-- C8 amended witness: a concrete `createEventListener` run exhibiting the
header layout, via the theorem. -/
theorem C8_actions_header_on_pull_and_monitor_witness :
    ∃ mtn,
      (createEventListener (fun _ => some (str "github")) (fun s => s ++ str "0") (fun _ => 7) 1
        ⟨str "wh", str "ns", str "pl", str "https://g.com/o/r", str "tok",
          str "monitor-task", []⟩ (str "o.r-")).map
          (fun m => m.triggers.map (fun t => (t.name, t.headers)))
      = some
        [(str "wh" ++ str "-" ++ str "ns" ++ str "-push-event",
          fixedHeaders (str "wh" ++ str "-" ++ str "ns" ++ str "-push-event")
            (str "https://g.com/o/r") (str "push, Push Hook, Tag Push Hook") (str "tok")),
         (str "wh" ++ str "-" ++ str "ns" ++ str "-pullrequest-event",
          fixedHeaders (str "wh" ++ str "-" ++ str "ns" ++ str "-pullrequest-event")
            (str "https://g.com/o/r") (str "pull_request, Merge Request Hook") (str "tok")
            ++ [actionsParam]),
         (mtn,
          fixedHeaders mtn (str "https://g.com/o/r") (str "pull_request, Merge Request Hook")
            (str "tok") ++ [actionsParam])] := by
  cases hm : createEventListener (fun _ => some (str "github"))
      (fun s => s ++ str "0") (fun _ => 7) 1
      ⟨str "wh", str "ns", str "pl", str "https://g.com/o/r", str "tok",
        str "monitor-task", []⟩ (str "o.r-") with
  | none => exact absurd hm (by decide)
  | some m =>
    obtain ⟨mtn, hmtn⟩ := C8_actions_header_on_pull_and_monitor.2.1 _ _ _ _ _ _ _ hm
    exact ⟨mtn, by simpa using congrArg some hmtn⟩

/-!
## Claim C7: deleting when the repository has no registrations
-/

/-- C7 counterexample: with valid parameters and an empty registration list
for the repository, `deleteWebhook` responds 400 (Bad Request), not the 404
the claim requires; no mutation is attempted. -/
theorem C7_counterexample :
    deleteWebhookModel (str "n") (str "https://g.com/o/r") (str "ns") []
        ⟨some [], true, true⟩ = ⟨400, false⟩ ∧ (400 : Nat) ≠ 404 := by
  decide

/-- C7 amended: a delete request whose repository has no registrations fails
with HTTP 400 and a "no webhook found" message, making no mutation (404 is
reserved for a failing lookup or for no registration matching the given name
and namespace). -/
theorem C7_no_registrations_gives_400 (name repo nspace : Str) (env : DeleteEnv)
    (hh : env.hooksRes = some []) (hr : repo ≠ []) (hn : nspace ≠ []) :
    deleteWebhookModel name repo nspace [] env = ⟨400, false⟩ := by
  unfold deleteWebhookModel
  rw [hh]
  simp [hr, hn]

/-- C7 amended witness. -/
theorem C7_no_registrations_gives_400_witness :
    deleteWebhookModel (str "wh") (str "https://g.com/o/r") (str "ns") []
        ⟨some [], false, false⟩ = ⟨400, false⟩ :=
  C7_no_registrations_gives_400 (str "wh") (str "https://g.com/o/r") (str "ns")
    ⟨some [], false, false⟩ rfl (by decide) (by decide)

/-!
## Claim C10: the ignored lookup error in `createWebhook`
-/

set_option maxHeartbeats 1000000 in
/-- C10: when the registration lookup fails, `createWebhook` behaves exactly
as if the repository had zero registrations: the conflict checks never fire,
and a 201 response implies the external-provider `AddWebhook` first-
registration path was taken. -/
theorem C10_lookup_error_ignored (env : CreateEnv) (w : Webhook) :
    createWebhookModel env none w = createWebhookModel env (some []) w ∧
    (createWebhookModel env none w).conflict = false ∧
    ((createWebhookModel env none w).status = 201 →
      (createWebhookModel env none w).addWebhookCalled = true) := by
  refine ⟨rfl, ?_, ?_⟩
  · unfold createWebhookModel
    simp only [Option.getD_none, List.any_nil, List.length_nil]
    repeat' split
    all_goals first | rfl | simp_all
  · unfold createWebhookModel
    simp only [Option.getD_none, List.any_nil, List.length_nil]
    repeat' split
    all_goals intro h
    all_goals first | rfl | exact absurd h (by decide) | simp_all

/-- C10 witness: a concrete environment in which the create succeeds with the
provider registration path taken. -/
theorem C10_lookup_error_ignored_witness :
    createWebhookModel
        ⟨[], true, ELGet.notFound, false, true, true, true,
          (fun _ => some (str "github")), (fun s => s), (fun _ => 3), 1⟩ none
        ⟨str "wh", str "ns", str "pl", str "https://g.com/o/r", str "tok", [], []⟩
      = createWebhookModel
        ⟨[], true, ELGet.notFound, false, true, true, true,
          (fun _ => some (str "github")), (fun s => s), (fun _ => 3), 1⟩ (some [])
        ⟨str "wh", str "ns", str "pl", str "https://g.com/o/r", str "tok", [], []⟩ ∧
    (createWebhookModel
        ⟨[], true, ELGet.notFound, false, true, true, true,
          (fun _ => some (str "github")), (fun s => s), (fun _ => 3), 1⟩ none
        ⟨str "wh", str "ns", str "pl", str "https://g.com/o/r", str "tok", [], []⟩).status
      = 201 ∧
    (createWebhookModel
        ⟨[], true, ELGet.notFound, false, true, true, true,
          (fun _ => some (str "github")), (fun s => s), (fun _ => 3), 1⟩ none
        ⟨str "wh", str "ns", str "pl", str "https://g.com/o/r", str "tok", [], []⟩).addWebhookCalled
      = true := by
  refine ⟨(C10_lookup_error_ignored _ _).1, ?_, ?_⟩ <;> decide

/-!
## Helper lemmas about the deletion fold and the deduplicator
-/

/-- The predicate for triggers the deletion loop keeps in `newTriggers`. -/
def delKeep (found : Bool) (mName : Str) (toRemove : List Str) (t : Trigger) : Bool :=
  !(decide (found = true ∧ t.name = mName)) && !(decide (t.name ∈ toRemove))

theorem foldl_delStep_newTriggers (found : Bool) (mName : Str) (toRemove : List Str)
    (w : Webhook) (mbn : Str) :
    ∀ (ts : List Trigger) (s : DelState),
      (ts.foldl (delStep found mName toRemove w mbn) s).newTriggers
        = s.newTriggers ++ ts.filter (delKeep found mName toRemove) := by
  intro ts
  induction ts with
  | nil => intro s; simp
  | cons t rest ih =>
    intro s
    rw [List.foldl_cons, List.filter_cons, ih]
    by_cases h1 : found = true ∧ t.name = mName
    · simp [delStep, delKeep, h1]
    · by_cases h2 : t.name ∈ toRemove
      · simp [delStep, delKeep, h1, h2]
      · simp [delStep, delKeep, h1, h2]

theorem foldl_delStep_monitor_id (found : Bool) (mName : Str) (toRemove : List Str)
    (w : Webhook) (mbn : Str) :
    ∀ (ts : List Trigger) (s : DelState), (∀ t ∈ ts, ¬(found = true ∧ t.name = mName)) →
      (ts.foldl (delStep found mName toRemove w mbn) s).monitorTrigger = s.monitorTrigger := by
  intro ts
  induction ts with
  | nil => intro s _; rfl
  | cons t rest ih =>
    intro s hno
    rw [List.foldl_cons]
    rw [ih _ (fun t ht => hno t (List.mem_cons_of_mem _ ht))]
    have h1 : ¬(found = true ∧ t.name = mName) := hno t (List.mem_cons_self _ _)
    by_cases h2 : t.name ∈ toRemove
    · simp [delStep, h1, h2]
    · simp [delStep, h1, h2]

theorem foldl_delStep_monitor_mem (mName : Str) (toRemove : List Str)
    (w : Webhook) (mbn : Str) :
    ∀ (ts : List Trigger) (s : DelState), (∃ t ∈ ts, t.name = mName) →
      (ts.foldl (delStep true mName toRemove w mbn) s).monitorTrigger ∈ ts ∧
      (ts.foldl (delStep true mName toRemove w mbn) s).monitorTrigger.name = mName := by
  intro ts
  induction ts with
  | nil => intro s h; simp at h
  | cons t rest ih =>
    intro s hex
    rw [List.foldl_cons]
    by_cases hrest : ∃ t ∈ rest, t.name = mName
    · obtain ⟨hm, hn⟩ := ih _ hrest
      exact ⟨List.mem_cons_of_mem _ hm, hn⟩
    · have ht : t.name = mName := by
        rcases hex with ⟨u, hu, hnu⟩
        rcases List.mem_cons.1 hu with rfl | hu2
        · exact hnu
        · exact absurd ⟨u, hu2, hnu⟩ hrest
      have h1 : (delStep true mName toRemove w mbn s t).monitorTrigger = t := by
        simp [delStep, ht]
      rw [foldl_delStep_monitor_id true mName toRemove w mbn rest _
        (fun u hu hc => hrest ⟨u, hu, hc.2⟩), h1]
      exact ⟨List.mem_cons_self _ _, ht⟩

theorem doesMonitorExist_name_mem (monPfx : Str) (w : Webhook) :
    ∀ ts : List Trigger, ∀ n, doesMonitorExist monPfx w ts = (true, n) →
      ∃ t ∈ ts, t.name = n := by
  intro ts
  induction ts with
  | nil => intro n h; simp [doesMonitorExist] at h
  | cons t rest ih =>
    intro n h
    rw [doesMonitorExist] at h
    by_cases hp : monPfx <+: t.name
    · rw [if_pos hp] at h
      cases hs : scanHeadersFor w.gitRepositoryURL t.headers with
      | none => rw [hs] at h; simp at h
      | some b =>
        cases b with
        | true =>
          rw [hs] at h
          simp only [Prod.mk.injEq] at h
          exact ⟨t, List.mem_cons_self _ _, h.2⟩
        | false =>
          rw [hs] at h
          obtain ⟨u, hu, hn⟩ := ih n h
          exact ⟨u, List.mem_cons_of_mem _ hu, hn⟩
    · rw [if_neg hp] at h
      obtain ⟨u, hu, hn⟩ := ih n h
      exact ⟨u, List.mem_cons_of_mem _ hu, hn⟩

theorem mem_mapInsert_self (m : List Str) (k : Str) : k ∈ mapInsert m k := by
  unfold mapInsert
  by_cases h : k ∈ m
  · simp [h]
  · simp [h]

theorem delStep_onRepo (found : Bool) (mName : Str) (toRemove : List Str)
    (w : Webhook) (mbn : Str) (s : DelState) (t : Trigger)
    (h : ∀ p ∈ t.headers, p.value ≠ w.gitRepositoryURL) :
    (delStep found mName toRemove w mbn s t).triggersOnRepo = s.triggersOnRepo := by
  have hz : t.headers.countP
      (fun p => decide (p.name = str "Wext-Repository-Url" ∧
        p.value = w.gitRepositoryURL)) = 0 := by
    rw [List.countP_eq_zero]
    intro p hp
    simp only [decide_eq_true_eq, not_and]
    exact fun _ => h p hp
  unfold delStep
  split_ifs <;> simp [hz] <;> exact fun a ha _ => h a ha

theorem foldl_delStep_onRepo_zero (found : Bool) (mName : Str) (toRemove : List Str)
    (w : Webhook) (mbn : Str) :
    ∀ (ts : List Trigger) (s : DelState),
      (∀ t ∈ ts, ∀ p ∈ t.headers, p.value ≠ w.gitRepositoryURL) →
      (ts.foldl (delStep found mName toRemove w mbn) s).triggersOnRepo = s.triggersOnRepo := by
  intro ts
  induction ts with
  | nil => intro s _; rfl
  | cons t rest ih =>
    intro s hall
    rw [List.foldl_cons, ih _ (fun u hu => hall u (List.mem_cons_of_mem _ hu)),
      delStep_onRepo found mName toRemove w mbn s t (hall t (List.mem_cons_self _ _))]

theorem compareGitRepoNames_true_elim {u1 u2 : Str}
    (h : compareGitRepoNames u1 u2 = some true) :
    ∃ g, getGitValues u1 = some g ∧ getGitValues u2 = some g := by
  unfold compareGitRepoNames at h
  cases h1 : getGitValues u1 with
  | none => rw [h1] at h; simp at h
  | some a =>
    cases h2 : getGitValues u2 with
    | none => rw [h1, h2] at h; simp at h
    | some b =>
      rw [h1, h2] at h
      simp only [Option.some.injEq, decide_eq_true_eq] at h
      exact ⟨a, rfl, congrArg some h.symm⟩

theorem compareGitRepoNames_left_congr {u1 u2 : Str}
    (h : compareGitRepoNames u1 u2 = some true) (v : Str) :
    compareGitRepoNames v u1 = compareGitRepoNames v u2 := by
  obtain ⟨g, h1, h2⟩ := compareGitRepoNames_true_elim h
  unfold compareGitRepoNames
  rw [h1, h2]

theorem scanHeadersFor_congr {u1 u2 : Str}
    (h : compareGitRepoNames u1 u2 = some true) :
    ∀ hs : List Param, scanHeadersFor u1 hs = scanHeadersFor u2 hs := by
  intro hs
  induction hs with
  | nil => rfl
  | cons p rest ih =>
    rw [scanHeadersFor, scanHeadersFor]
    by_cases hn : p.name = str "Wext-Repository-Url"
    · rw [if_pos hn, if_pos hn, compareGitRepoNames_left_congr h p.value, ih]
    · rw [if_neg hn, if_neg hn, ih]

theorem doesMonitorExist_congr (monPfx : Str) (w : Webhook) {u : Str}
    (h : compareGitRepoNames w.gitRepositoryURL u = some true) :
    ∀ ts : List Trigger,
      doesMonitorExist monPfx w ts
        = doesMonitorExist monPfx { w with gitRepositoryURL := u } ts := by
  intro ts
  induction ts with
  | nil => rfl
  | cons t rest ih =>
    rw [doesMonitorExist, doesMonitorExist]
    by_cases hp : monPfx <+: t.name
    · rw [if_pos hp, if_pos hp]
      show (match scanHeadersFor w.gitRepositoryURL t.headers with
        | none => (false, [])
        | some true => (true, t.name)
        | some false => doesMonitorExist monPfx w rest) = _
      rw [scanHeadersFor_congr h t.headers, ih]
    · rw [if_neg hp, if_neg hp, ih]

/-!
## Claim C5: which comparisons go through the normalizer
-/

/-- C5 counterexample: two URLs equal under the normalizer (trailing slash)
on which duplicate detection (`getHooksForRepo`) and PipelineRun cleanup
matching produce different outcomes than for identical URL strings. -/
theorem C5_counterexample :
    compareGitRepoNames (str "https://g.com/o/r") (str "https://g.com/o/r/") = some true ∧
    hooksForRepo [⟨str "wh", str "ns", str "pl", str "https://g.com/o/r", str "tok",
        str "monitor-task", []⟩] (str "https://g.com/o/r")
      = [⟨str "wh", str "ns", str "pl", str "https://g.com/o/r", str "tok",
        str "monitor-task", []⟩] ∧
    hooksForRepo [⟨str "wh", str "ns", str "pl", str "https://g.com/o/r", str "tok",
        str "monitor-task", []⟩] (str "https://g.com/o/r/") = [] ∧
    deletePipelineRunsSelect (str "https://g.com/o/r") (str "pl")
        [⟨str "run1", str "pl", str "g.com", str "o", str "r"⟩]
      = [⟨str "run1", str "pl", str "g.com", str "o", str "r"⟩] ∧
    deletePipelineRunsSelect (str "https://g.com/o/r/") (str "pl")
        [⟨str "run1", str "pl", str "g.com", str "o", str "r"⟩] = [] := by
  decide

/-- C5 amended: only the monitor deduplication compares repositories through
the normalizer — `doesMonitorExist` cannot distinguish normalizer-equal
webhook URLs — while duplicate detection keeps only exact string matches of
the stored URL and the deregistration count `triggersOnRepo` counts only
headers exactly equal to the registration's URL string (PipelineRun cleanup,
per the counterexample, compares lowercased `.git`-stripped reconstructions). -/
theorem C5_identity_comparisons :
    (∀ monPfx (w : Webhook) (u : Str) ts,
      compareGitRepoNames w.gitRepositoryURL u = some true →
      doesMonitorExist monPfx w ts
        = doesMonitorExist monPfx { w with gitRepositoryURL := u } ts) ∧
    (∀ allHooks (hook : Webhook) gitURL,
      hook ∈ hooksForRepo allHooks gitURL → hook.gitRepositoryURL = gitURL) ∧
    (∀ name monPfx mbn (w : Webhook) ts,
      (∀ t ∈ ts, ∀ p ∈ t.headers, p.value ≠ w.gitRepositoryURL) →
      (deleteFromEventListenerCore name monPfx mbn w ts).triggersOnRepo = 0) := by
  refine ⟨fun monPfx w u ts h => doesMonitorExist_congr monPfx w h ts, ?_, ?_⟩
  · intro allHooks hook gitURL hm
    unfold hooksForRepo at hm
    simpa using (List.mem_filter.1 hm).2
  · intro name monPfx mbn w ts hall
    have hz := foldl_delStep_onRepo_zero (doesMonitorExist monPfx w ts).1
      (doesMonitorExist monPfx w ts).2
      [name ++ str "-push-event", name ++ str "-pullrequest-event"] w mbn ts
      ⟨[], [], Trigger.empty, [], 0, 0⟩ hall
    simp only [deleteFromEventListenerCore]
    split_ifs with hgt
    · simpa using hz
    · simpa using hz

/-- C5 amended witness. -/
theorem C5_identity_comparisons_witness :
    doesMonitorExist (str "o.r-")
        ⟨str "a", str "x", str "p", str "https://g.com/o/r", str "t", str "mt", []⟩
        [⟨str "o.r-3", [], [], [⟨str "Wext-Repository-Url", str "https://g.com/o/r"⟩]⟩]
      = doesMonitorExist (str "o.r-")
        ⟨str "a", str "x", str "p", str "https://G.com/O/R", str "t", str "mt", []⟩
        [⟨str "o.r-3", [], [], [⟨str "Wext-Repository-Url", str "https://g.com/o/r"⟩]⟩] :=
  C5_identity_comparisons.1 (str "o.r-")
    ⟨str "a", str "x", str "p", str "https://g.com/o/r", str "t", str "mt", []⟩
    (str "https://G.com/O/R")
    [⟨str "o.r-3", [], [], [⟨str "Wext-Repository-Url", str "https://g.com/o/r"⟩]⟩]
    (by decide)

theorem delKeep_true_iff (found : Bool) (mName : Str) (toRemove : List Str) (t : Trigger) :
    delKeep found mName toRemove t = true ↔
      (¬(found = true ∧ t.name = mName) ∧ t.name ∉ toRemove) := by
  cases found <;> simp [delKeep]

/-!
## Claim C2: monitor retention during deregistration
-/

/-- C2 counterexample: two registrations for the same repository (their URLs
equal under the normalizer but differing in case).  Deleting all but one of
them drops the monitor trigger, because `triggersOnRepo` counts only headers
exactly equal to the deleted registration's URL string; the claim requires the
monitor to be retained. -/
theorem C2_counterexample :
    compareGitRepoNames (str "https://G.com/O/R") (str "https://g.com/o/r") = some true ∧
    doesMonitorExist (str "o.r-")
        ⟨str "a", str "x", str "p", str "https://G.com/O/R", str "t", str "mt", []⟩
        [⟨str "o.r-1", [], [], [⟨str "Wext-Repository-Url", str "https://G.com/O/R"⟩]⟩,
         ⟨str "a-x-push-event", [], [], [⟨str "Wext-Repository-Url", str "https://G.com/O/R"⟩]⟩,
         ⟨str "a-x-pullrequest-event", [], [],
            [⟨str "Wext-Repository-Url", str "https://G.com/O/R"⟩]⟩,
         ⟨str "b-x-push-event", [], [], [⟨str "Wext-Repository-Url", str "https://g.com/o/r"⟩]⟩,
         ⟨str "b-x-pullrequest-event", [], [],
            [⟨str "Wext-Repository-Url", str "https://g.com/o/r"⟩]⟩]
      = (true, str "o.r-1") ∧
    (¬ ∃ t ∈ (deleteFromEventListenerCore (str "a-x") (str "o.r-") (str "mb")
        ⟨str "a", str "x", str "p", str "https://G.com/O/R", str "t", str "mt", []⟩
        [⟨str "o.r-1", [], [], [⟨str "Wext-Repository-Url", str "https://G.com/O/R"⟩]⟩,
         ⟨str "a-x-push-event", [], [], [⟨str "Wext-Repository-Url", str "https://G.com/O/R"⟩]⟩,
         ⟨str "a-x-pullrequest-event", [], [],
            [⟨str "Wext-Repository-Url", str "https://G.com/O/R"⟩]⟩,
         ⟨str "b-x-push-event", [], [], [⟨str "Wext-Repository-Url", str "https://g.com/o/r"⟩]⟩,
         ⟨str "b-x-pullrequest-event", [], [],
            [⟨str "Wext-Repository-Url", str "https://g.com/o/r"⟩]⟩]).newTriggers,
      t.name = str "o.r-1") ∧
    (∃ t ∈ (deleteFromEventListenerCore (str "a-x") (str "o.r-") (str "mb")
        ⟨str "a", str "x", str "p", str "https://G.com/O/R", str "t", str "mt", []⟩
        [⟨str "o.r-1", [], [], [⟨str "Wext-Repository-Url", str "https://G.com/O/R"⟩]⟩,
         ⟨str "a-x-push-event", [], [], [⟨str "Wext-Repository-Url", str "https://G.com/O/R"⟩]⟩,
         ⟨str "a-x-pullrequest-event", [], [],
            [⟨str "Wext-Repository-Url", str "https://G.com/O/R"⟩]⟩,
         ⟨str "b-x-push-event", [], [], [⟨str "Wext-Repository-Url", str "https://g.com/o/r"⟩]⟩,
         ⟨str "b-x-pullrequest-event", [], [],
            [⟨str "Wext-Repository-Url", str "https://g.com/o/r"⟩]⟩]).newTriggers,
      t.name = str "b-x-push-event") := by
  decide

/-- C2 amended: when `doesMonitorExist` finds the repository's monitor
trigger, the updated collection keeps a trigger of that name exactly when
`triggersOnRepo` (headers exactly equal to the registration's URL string on
non-monitor triggers) exceeds `triggersDeleted`; otherwise the monitor is
dropped and the binding name recovered from it is marked for deletion.
Deleting all but one registration therefore retains the monitor only when the
remaining registrations carry the identical URL string. -/
theorem C2_monitor_retention (nm monPfx mbn : Str) (w : Webhook) (ts : List Trigger)
    (mName : Str) (hf : doesMonitorExist monPfx w ts = (true, mName)) :
    ((∃ t ∈ (deleteFromEventListenerCore nm monPfx mbn w ts).newTriggers, t.name = mName) ↔
      (deleteFromEventListenerCore nm monPfx mbn w ts).triggersOnRepo >
        (deleteFromEventListenerCore nm monPfx mbn w ts).triggersDeleted) ∧
    ((deleteFromEventListenerCore nm monPfx mbn w ts).triggersOnRepo ≤
        (deleteFromEventListenerCore nm monPfx mbn w ts).triggersDeleted →
      (deleteFromEventListenerCore nm monPfx mbn w ts).actualMonitorBindingName ∈
        (deleteFromEventListenerCore nm monPfx mbn w ts).bindingsToRemove) := by
  have hmem := doesMonitorExist_name_mem monPfx w ts mName hf
  have hmon := foldl_delStep_monitor_mem mName
    [nm ++ str "-push-event", nm ++ str "-pullrequest-event"] w mbn ts
    ⟨[], [], Trigger.empty, [], 0, 0⟩ hmem
  have hnew := foldl_delStep_newTriggers true mName
    [nm ++ str "-push-event", nm ++ str "-pullrequest-event"] w mbn ts
    ⟨[], [], Trigger.empty, [], 0, 0⟩
  simp only [deleteFromEventListenerCore, hf]
  split_ifs with hgt
  · refine ⟨⟨fun _ => hgt, fun _ => ?_⟩, fun hle => absurd hgt (not_lt.2 hle)⟩
    exact ⟨_, List.mem_append_right _ (List.mem_singleton_self _), hmon.2⟩
  · refine ⟨⟨fun hex => ?_, fun h => absurd h hgt⟩, fun _ => mem_mapInsert_self _ _⟩
    exfalso
    obtain ⟨t, ht, hname⟩ := hex
    rw [hnew] at ht
    simp only [List.nil_append] at ht
    have hk := (List.mem_filter.1 ht).2
    rw [delKeep_true_iff] at hk
    exact hk.1 ⟨rfl, hname⟩

/-- C2 amended witness: two registrations with the identical URL string;
deleting one of them retains the monitor trigger. -/
theorem C2_monitor_retention_witness :
    ∃ t ∈ (deleteFromEventListenerCore (str "a-x") (str "o.r-") (str "mb")
        ⟨str "a", str "x", str "p", str "https://g.com/o/r", str "t", str "mt", []⟩
        [⟨str "o.r-1", [], [], [⟨str "Wext-Repository-Url", str "https://g.com/o/r"⟩]⟩,
         ⟨str "a-x-push-event", [], [], [⟨str "Wext-Repository-Url", str "https://g.com/o/r"⟩]⟩,
         ⟨str "a-x-pullrequest-event", [], [],
            [⟨str "Wext-Repository-Url", str "https://g.com/o/r"⟩]⟩,
         ⟨str "b-x-push-event", [], [], [⟨str "Wext-Repository-Url", str "https://g.com/o/r"⟩]⟩,
         ⟨str "b-x-pullrequest-event", [], [],
            [⟨str "Wext-Repository-Url", str "https://g.com/o/r"⟩]⟩]).newTriggers,
      t.name = str "o.r-1" :=
  (C2_monitor_retention (str "a-x") (str "o.r-") (str "mb")
    ⟨str "a", str "x", str "p", str "https://g.com/o/r", str "t", str "mt", []⟩
    [⟨str "o.r-1", [], [], [⟨str "Wext-Repository-Url", str "https://g.com/o/r"⟩]⟩,
     ⟨str "a-x-push-event", [], [], [⟨str "Wext-Repository-Url", str "https://g.com/o/r"⟩]⟩,
     ⟨str "a-x-pullrequest-event", [], [],
        [⟨str "Wext-Repository-Url", str "https://g.com/o/r"⟩]⟩,
     ⟨str "b-x-push-event", [], [], [⟨str "Wext-Repository-Url", str "https://g.com/o/r"⟩]⟩,
     ⟨str "b-x-pullrequest-event", [], [],
        [⟨str "Wext-Repository-Url", str "https://g.com/o/r"⟩]⟩]
    (str "o.r-1") (by decide)).1.mpr (by decide)

/-!
## Claim C3: deregistration removes exactly the registration's two triggers
-/

/-- C3: when the repository's monitor is found, deregistration with stem `nm`
removes exactly the triggers named `nm ++ "-push-event"` and
`nm ++ "-pullrequest-event"`: every other trigger except possibly the monitor
reappears as the same record, nothing new appears, and the two named triggers
are gone. -/
theorem C3_delete_frame (nm monPfx mbn : Str) (w : Webhook) (ts : List Trigger)
    (mName : Str) (hf : doesMonitorExist monPfx w ts = (true, mName)) :
    (∀ t ∈ ts, t.name ≠ nm ++ str "-push-event" → t.name ≠ nm ++ str "-pullrequest-event" →
      t.name ≠ mName → t ∈ (deleteFromEventListenerCore nm monPfx mbn w ts).newTriggers) ∧
    (∀ t ∈ (deleteFromEventListenerCore nm monPfx mbn w ts).newTriggers, t ∈ ts) ∧
    (∀ t ∈ ts,
      (t.name = nm ++ str "-push-event" ∨ t.name = nm ++ str "-pullrequest-event") →
      t.name ≠ mName →
      t ∉ (deleteFromEventListenerCore nm monPfx mbn w ts).newTriggers) := by
  have hmem := doesMonitorExist_name_mem monPfx w ts mName hf
  have hmon := foldl_delStep_monitor_mem mName
    [nm ++ str "-push-event", nm ++ str "-pullrequest-event"] w mbn ts
    ⟨[], [], Trigger.empty, [], 0, 0⟩ hmem
  have hnew := foldl_delStep_newTriggers true mName
    [nm ++ str "-push-event", nm ++ str "-pullrequest-event"] w mbn ts
    ⟨[], [], Trigger.empty, [], 0, 0⟩
  simp only [deleteFromEventListenerCore, hf]
  have hkeep : ∀ t : Trigger, t.name ≠ nm ++ str "-push-event" →
      t.name ≠ nm ++ str "-pullrequest-event" → t.name ≠ mName →
      delKeep true mName [nm ++ str "-push-event", nm ++ str "-pullrequest-event"] t
        = true := by
    intro t h1 h2 h3
    rw [delKeep_true_iff]
    exact ⟨fun hc => h3 hc.2, by simp [h1, h2]⟩
  split_ifs with hgt
  · refine ⟨?_, ?_, ?_⟩
    · intro t ht h1 h2 h3
      refine List.mem_append_left _ ?_
      rw [hnew]
      simp only [List.nil_append]
      exact List.mem_filter.2 ⟨ht, hkeep t h1 h2 h3⟩
    · intro t ht
      rcases List.mem_append.1 ht with hl | hr
      · rw [hnew] at hl
        simp only [List.nil_append] at hl
        exact List.mem_of_mem_filter hl
      · rw [List.mem_singleton.1 hr]
        exact hmon.1
    · intro t ht hrm h3
      intro hin
      rcases List.mem_append.1 hin with hl | hr
      · rw [hnew] at hl
        simp only [List.nil_append] at hl
        have hk := (List.mem_filter.1 hl).2
        rw [delKeep_true_iff] at hk
        rcases hrm with h | h <;> exact hk.2 (by simp [h])
      · exact h3 (by rw [List.mem_singleton.1 hr]; exact hmon.2)
  · refine ⟨?_, ?_, ?_⟩
    · intro t ht h1 h2 h3
      rw [hnew]
      simp only [List.nil_append]
      exact List.mem_filter.2 ⟨ht, hkeep t h1 h2 h3⟩
    · intro t ht
      rw [hnew] at ht
      simp only [List.nil_append] at ht
      exact List.mem_of_mem_filter ht
    · intro t ht hrm h3
      intro hin
      rw [hnew] at hin
      simp only [List.nil_append] at hin
      have hk := (List.mem_filter.1 hin).2
      rw [delKeep_true_iff] at hk
      rcases hrm with h | h <;> exact hk.2 (by simp [h])

/-- C3 witness: in the two-registration scenario, a trigger of the other
registration survives deregistration as the same record. -/
theorem C3_delete_frame_witness :
    (⟨str "b-x-push-event", [], [], [⟨str "Wext-Repository-Url", str "https://g.com/o/r"⟩]⟩
        : Trigger)
      ∈ (deleteFromEventListenerCore (str "a-x") (str "o.r-") (str "mb")
        ⟨str "a", str "x", str "p", str "https://g.com/o/r", str "t", str "mt", []⟩
        [⟨str "o.r-1", [], [], [⟨str "Wext-Repository-Url", str "https://g.com/o/r"⟩]⟩,
         ⟨str "a-x-push-event", [], [], [⟨str "Wext-Repository-Url", str "https://g.com/o/r"⟩]⟩,
         ⟨str "b-x-push-event", [], [],
            [⟨str "Wext-Repository-Url", str "https://g.com/o/r"⟩]⟩]).newTriggers :=
  (C3_delete_frame (str "a-x") (str "o.r-") (str "mb")
    ⟨str "a", str "x", str "p", str "https://g.com/o/r", str "t", str "mt", []⟩
    [⟨str "o.r-1", [], [], [⟨str "Wext-Repository-Url", str "https://g.com/o/r"⟩]⟩,
     ⟨str "a-x-push-event", [], [], [⟨str "Wext-Repository-Url", str "https://g.com/o/r"⟩]⟩,
     ⟨str "b-x-push-event", [], [],
        [⟨str "Wext-Repository-Url", str "https://g.com/o/r"⟩]⟩]
    (str "o.r-1") (by decide)).1
    ⟨str "b-x-push-event", [], [], [⟨str "Wext-Repository-Url", str "https://g.com/o/r"⟩]⟩
    (by decide) (by decide) (by decide) (by decide)

/-!
## Claim C6: shape of the collection created by the first registration
-/

/-- C6: a successful first registration creates the collection with exactly
three triggers — `{name}-{namespace}-push-event`,
`{name}-{namespace}-pullrequest-event`, and a monitor named
`{owner}.{repo}-` followed by a generated decimal suffix — and creates both a
hook binding and a monitor binding. -/
theorem C6_first_registration (provider : Str → Option Str) (gen : Str → Str)
    (rnd : Nat → Nat) (fuel : Nat) (w : Webhook) (so o r : Str) (m : ELMutation)
    (_hg : getGitValues w.gitRepositoryURL = some (so, o, r))
    (hc : createEventListener provider gen rnd fuel w (monitorStem o r) = some m) :
    ∃ k, k < 10000 ∧
      m.triggers.map Trigger.name
        = [w.name ++ str "-" ++ w.nspace ++ str "-push-event",
           w.name ++ str "-" ++ w.nspace ++ str "-pullrequest-event",
           monitorStem o r ++ str (Nat.repr k)] ∧
      m.hookBinding = gen (str "wext-" ++ w.name ++ str "-") ∧
      m.monitorBinding.isSome = true := by
  unfold createEventListener at hc
  cases hb : getMonitorBindingName provider w.gitRepositoryURL w.pullTask with
  | none => rw [hb] at hc; exact absurd hc (by simp)
  | some mbn =>
    rw [hb] at hc
    simp only [] at hc
    cases hgen : generateMonitorTriggerName (monitorStem o r) rnd [] fuel with
    | none => rw [hgen] at hc; exact absurd hc (by simp)
    | some mtn =>
      rw [hgen] at hc
      simp only [Option.some.injEq] at hc
      subst hc
      obtain ⟨⟨k, hk, hout⟩, _⟩ := generateMonitorTriggerName_some hgen
      subst hout
      exact ⟨k, hk, by simp [newTrigger], rfl, rfl⟩

/-- C6 witness. -/
theorem C6_first_registration_witness :
    ∃ k, k < 10000 ∧
      ((createEventListener (fun _ => some (str "github")) (fun s => s ++ str "0")
          (fun _ => 42) 1
          ⟨str "wh", str "ns", str "pl", str "https://g.com/o/r", str "tok",
            str "monitor-task", []⟩ (monitorStem (str "o") (str "r"))).map
        (fun m => m.triggers.map Trigger.name)).getD []
        = [str "wh" ++ str "-" ++ str "ns" ++ str "-push-event",
           str "wh" ++ str "-" ++ str "ns" ++ str "-pullrequest-event",
           monitorStem (str "o") (str "r") ++ str (Nat.repr k)] := by
  cases hm : createEventListener (fun _ => some (str "github")) (fun s => s ++ str "0")
      (fun _ => 42) 1
      ⟨str "wh", str "ns", str "pl", str "https://g.com/o/r", str "tok",
        str "monitor-task", []⟩ (monitorStem (str "o") (str "r")) with
  | none => exact absurd hm (by decide)
  | some m =>
    obtain ⟨k, hk, hnames, _, _⟩ := C6_first_registration _ _ _ _ _
      (str "https://g.com") (str "o") (str "r") m (by decide) hm
    exact ⟨k, hk, by simp [hnames]⟩

/-!
## Claim C1: exactly one monitor trigger per repository
-/

/-- The repository-URL header values of a header list. -/
def repoHeaderValues (hs : List Param) : List Str :=
  (hs.filter (fun p => decide (p.name = str "Wext-Repository-Url"))).map Param.value

/-- A trigger counted as the monitor for `{owner}.{repo}` by its name stem. -/
def isMonitorFor (o r : Str) (t : Trigger) : Bool := decide (monitorStem o r <+: t.name)

/-- The reachable-state invariant for a repository parsing to `(so, o, r)`:
exactly one trigger carries the monitor stem, and every trigger's single
repository-URL header parses to the repository. -/
def RepoInv (so o r : Str) (ts : List Trigger) : Prop :=
  ts.countP (isMonitorFor o r) = 1 ∧
  ∀ t ∈ ts, ∃ v, repoHeaderValues t.headers = [v] ∧ getGitValues v = some (so, o, r)

theorem repoHeaderValues_newTrigger (n b tp u e sec x : Str) :
    repoHeaderValues (newTrigger n b tp u e sec x).headers = [u] := rfl

theorem repoHeaderValues_newTrigger_actions (n b tp u e sec x : Str) :
    repoHeaderValues ((newTrigger n b tp u e sec x).headers ++ [actionsParam]) = [u] := rfl

theorem dot_mem_monitorStem (o r : Str) : '.' ∈ monitorStem o r := by
  simp [monitorStem, str]

theorem monitorStem_not_prefix_of_no_dot {o r n : Str} (hd : '.' ∉ n) :
    ¬ monitorStem o r <+: n :=
  fun h => hd (h.subset (dot_mem_monitorStem o r))

theorem no_dot_in_derived {a b sfx : Str} (ha : '.' ∉ a) (hb : '.' ∉ b)
    (hs : '.' ∉ sfx) : '.' ∉ a ++ str "-" ++ b ++ sfx := by
  intro h
  rcases List.mem_append.1 h with h1 | h1
  · rcases List.mem_append.1 h1 with h2 | h2
    · rcases List.mem_append.1 h2 with h3 | h3
      · exact ha h3
      · exact absurd h3 (by decide)
    · exact hb h2
  · exact hs h1

theorem compare_of_parses {v u : Str} {g : Str × Str × Str}
    (h1 : getGitValues v = some g) (h2 : getGitValues u = some g) :
    compareGitRepoNames v u = some true := by
  unfold compareGitRepoNames
  rw [h1, h2]
  simp

theorem scanHeadersFor_of_single {u v : Str} :
    ∀ hs : List Param, repoHeaderValues hs = [v] → compareGitRepoNames v u = some true →
      scanHeadersFor u hs = some true := by
  intro hs
  induction hs with
  | nil => intro h _; simp [repoHeaderValues] at h
  | cons p rest ih =>
    intro h hcmp
    by_cases hn : p.name = str "Wext-Repository-Url"
    · have hval : p.value = v ∧ repoHeaderValues rest = [] := by
        unfold repoHeaderValues at h
        rw [List.filter_cons_of_pos (by simpa using hn)] at h
        simpa [repoHeaderValues] using h
      rw [scanHeadersFor, if_pos hn, hval.1, hcmp]
    · have hrest : repoHeaderValues rest = [v] := by
        unfold repoHeaderValues at h ⊢
        rwa [List.filter_cons_of_neg (by simpa using hn)] at h
      rw [scanHeadersFor, if_neg hn]
      exact ih hrest hcmp

theorem doesMonitorExist_fst_true (pfx : Str) (w : Webhook) :
    ∀ ts : List Trigger, (∃ t ∈ ts, pfx <+: t.name) →
      (∀ t ∈ ts, scanHeadersFor w.gitRepositoryURL t.headers = some true) →
      (doesMonitorExist pfx w ts).1 = true := by
  intro ts
  induction ts with
  | nil => intro h _; simp at h
  | cons t rest ih =>
    intro hex hscan
    rw [doesMonitorExist]
    by_cases hp : pfx <+: t.name
    · rw [if_pos hp, hscan t (List.mem_cons_self _ _)]
    · rw [if_neg hp]
      refine ih ?_ (fun u hu => hscan u (List.mem_cons_of_mem _ hu))
      rcases hex with ⟨u, hu, hpu⟩
      rcases List.mem_cons.1 hu with rfl | hu2
      · exact absurd hpu hp
      · exact ⟨u, hu2, hpu⟩

theorem createEventListener_inv (provider : Str → Option Str) (gen : Str → Str)
    (rnd : Nat → Nat) (fuel : Nat) (w : Webhook) (so o r : Str) (m : ELMutation)
    (hw : getGitValues w.gitRepositoryURL = some (so, o, r))
    (hn : '.' ∉ w.name) (hns : '.' ∉ w.nspace)
    (hc : createEventListener provider gen rnd fuel w (monitorStem o r) = some m) :
    RepoInv so o r m.triggers ∧ m.triggers.length = 3 := by
  unfold createEventListener at hc
  cases hb : getMonitorBindingName provider w.gitRepositoryURL w.pullTask with
  | none => rw [hb] at hc; exact absurd hc (by simp)
  | some mbn =>
    rw [hb] at hc
    simp only [] at hc
    cases hgen : generateMonitorTriggerName (monitorStem o r) rnd [] fuel with
    | none => rw [hgen] at hc; exact absurd hc (by simp)
    | some mtn =>
      rw [hgen] at hc
      simp only [Option.some.injEq] at hc
      subst hc
      obtain ⟨⟨k, _, hout⟩, _⟩ := generateMonitorTriggerName_some hgen
      have hpush : isMonitorFor o r (newTrigger (w.name ++ str "-" ++ w.nspace ++ str "-push-event")
          (w.pipeline ++ str "-push-binding") (w.pipeline ++ str "-template")
          w.gitRepositoryURL (str "push, Push Hook, Tag Push Hook") w.accessTokenRef
          (createBindings w mbn true gen).1) = false := by
        simp only [isMonitorFor, newTrigger, decide_eq_false_iff_not]
        exact monitorStem_not_prefix_of_no_dot (no_dot_in_derived hn hns (by decide))
      have hmon : monitorStem o r <+: mtn := by
        rw [hout]; exact List.prefix_append _ _
      refine ⟨⟨?_, ?_⟩, rfl⟩
      · simp only [List.countP_cons, List.countP_nil]
        rw [hpush]
        have hpull : isMonitorFor o r { newTrigger
            (w.name ++ str "-" ++ w.nspace ++ str "-pullrequest-event")
            (w.pipeline ++ str "-pullrequest-binding") (w.pipeline ++ str "-template")
            w.gitRepositoryURL (str "pull_request, Merge Request Hook") w.accessTokenRef
            (createBindings w mbn true gen).1 with
              headers := (newTrigger (w.name ++ str "-" ++ w.nspace ++ str "-pullrequest-event")
                (w.pipeline ++ str "-pullrequest-binding") (w.pipeline ++ str "-template")
                w.gitRepositoryURL (str "pull_request, Merge Request Hook") w.accessTokenRef
                (createBindings w mbn true gen).1).headers ++ [actionsParam] } = false := by
          simp only [isMonitorFor, newTrigger, decide_eq_false_iff_not]
          exact monitorStem_not_prefix_of_no_dot (no_dot_in_derived hn hns (by decide))
        rw [hpull]
        have hmonB : isMonitorFor o r { newTrigger mtn mbn (w.pullTask ++ str "-template")
            w.gitRepositoryURL (str "pull_request, Merge Request Hook") w.accessTokenRef
            (createBindings w mbn true gen).2 with
              headers := (newTrigger mtn mbn (w.pullTask ++ str "-template")
                w.gitRepositoryURL (str "pull_request, Merge Request Hook") w.accessTokenRef
                (createBindings w mbn true gen).2).headers ++ [actionsParam] } = true := by
          simp only [isMonitorFor, newTrigger, decide_eq_true_eq]
          exact hmon
        rw [hmonB]
        rfl
      · intro t ht
        rcases List.mem_cons.1 ht with rfl | ht1
        · exact ⟨w.gitRepositoryURL, repoHeaderValues_newTrigger _ _ _ _ _ _ _, hw⟩
        · rcases List.mem_cons.1 ht1 with rfl | ht2
          · exact ⟨w.gitRepositoryURL, repoHeaderValues_newTrigger_actions _ _ _ _ _ _ _, hw⟩
          · rcases List.mem_cons.1 ht2 with rfl | ht3
            · exact ⟨w.gitRepositoryURL, repoHeaderValues_newTrigger_actions _ _ _ _ _ _ _, hw⟩
            · simp at ht3

theorem isMonitorFor_of_no_dot (o r : Str) (t : Trigger) (hd : '.' ∉ t.name) :
    isMonitorFor o r t = false := by
  simp only [isMonitorFor, decide_eq_false_iff_not]
  exact monitorStem_not_prefix_of_no_dot hd

theorem updateEventListener_inv (provider : Str → Option Str) (gen : Str → Str)
    (rnd : Nat → Nat) (fuel : Nat) (ts : List Trigger) (w : Webhook) (so o r : Str)
    (m : ELMutation)
    (hInv : RepoInv so o r ts)
    (hw : getGitValues w.gitRepositoryURL = some (so, o, r))
    (hn : '.' ∉ w.name) (hns : '.' ∉ w.nspace)
    (hu : updateEventListener provider gen rnd fuel ts w (monitorStem o r) = some m) :
    RepoInv so o r m.triggers ∧ m.triggers.length = ts.length + 2 := by
  have hscan : ∀ t ∈ ts, scanHeadersFor w.gitRepositoryURL t.headers = some true := by
    intro t ht
    obtain ⟨v, hv, hpv⟩ := hInv.2 t ht
    exact scanHeadersFor_of_single t.headers hv (compare_of_parses hpv hw)
  have hex : ∃ t ∈ ts, monitorStem o r <+: t.name := by
    have h0 : 0 < ts.countP (isMonitorFor o r) := by rw [hInv.1]; norm_num
    obtain ⟨t, ht, hp⟩ := List.countP_pos_iff.1 h0
    exact ⟨t, ht, of_decide_eq_true hp⟩
  have hfound : (doesMonitorExist (monitorStem o r) w ts).1 = true :=
    doesMonitorExist_fst_true (monitorStem o r) w ts hex hscan
  unfold updateEventListener at hu
  cases hb : getMonitorBindingName provider w.gitRepositoryURL w.pullTask with
  | none => rw [hb] at hu; exact absurd hu (by simp)
  | some mbn =>
    rw [hb] at hu
    simp only [hfound, if_true] at hu
    simp only [Option.some.injEq] at hu
    subst hu
    refine ⟨⟨?_, ?_⟩, by simp⟩
    · rw [List.countP_append, hInv.1]
      simp only [List.countP_cons, List.countP_nil]
      rw [isMonitorFor_of_no_dot o r _ (no_dot_in_derived hn hns (by decide)),
        isMonitorFor_of_no_dot o r _ (no_dot_in_derived hn hns (by decide))]
      simp
    · intro t ht
      rcases List.mem_append.1 ht with h1 | h1
      · exact hInv.2 t h1
      · rcases List.mem_cons.1 h1 with rfl | h2
        · exact ⟨w.gitRepositoryURL, repoHeaderValues_newTrigger _ _ _ _ _ _ _, hw⟩
        · rcases List.mem_cons.1 h2 with rfl | h3
          · exact ⟨w.gitRepositoryURL, repoHeaderValues_newTrigger_actions _ _ _ _ _ _ _, hw⟩
          · simp at h3

theorem elRegister_inv (provider : Str → Option Str) (gen : Str → Str) (c : CreateCall)
    (ts ts' : List Trigger) (so o r : Str)
    (hInv : RepoInv so o r ts)
    (hurl : getGitValues c.w.gitRepositoryURL = some (so, o, r))
    (hn : '.' ∉ c.w.name) (hns : '.' ∉ c.w.nspace)
    (he : elRegister provider gen c ts = some ts') :
    RepoInv so o r ts' ∧ ts'.length = ts.length + 2 := by
  have hne : ts ≠ [] := by
    intro h
    rw [h] at hInv
    simp [RepoInv] at hInv
  unfold elRegister at he
  simp only [hurl] at he
  rw [if_neg hne] at he
  cases hu : updateEventListener provider gen c.rnd c.fuel ts c.w (monitorStem o r) with
  | none => rw [hu] at he; exact absurd he (by simp)
  | some m =>
    rw [hu] at he
    simp only [Option.map_some', Option.some.injEq] at he
    subst he
    exact updateEventListener_inv provider gen c.rnd c.fuel ts c.w so o r m hInv hurl hn hns hu

theorem elRegister_base (provider : Str → Option Str) (gen : Str → Str) (c : CreateCall)
    (ts' : List Trigger) (so o r : Str)
    (hurl : getGitValues c.w.gitRepositoryURL = some (so, o, r))
    (hn : '.' ∉ c.w.name) (hns : '.' ∉ c.w.nspace)
    (he : elRegister provider gen c [] = some ts') :
    RepoInv so o r ts' ∧ ts'.length = 3 := by
  unfold elRegister at he
  simp only [hurl] at he
  simp only [if_true] at he
  cases hu : createEventListener provider gen c.rnd c.fuel c.w (monitorStem o r) with
  | none => rw [hu] at he; exact absurd he (by simp)
  | some m =>
    rw [hu] at he
    simp only [Option.map_some', Option.some.injEq] at he
    subst he
    exact createEventListener_inv provider gen c.rnd c.fuel c.w so o r m hurl hn hns hu

theorem runFrom_none (provider : Str → Option Str) (gen : Str → Str) :
    ∀ calls : List CreateCall, runFrom provider gen none calls = none := by
  intro calls
  induction calls with
  | nil => rfl
  | cons c rest ih => rw [runFrom, Option.none_bind]; exact ih

theorem runFrom_inv (provider : Str → Option Str) (gen : Str → Str) (so o r : Str) :
    ∀ (calls : List CreateCall) (ts ts' : List Trigger), RepoInv so o r ts →
      (∀ c ∈ calls, getGitValues c.w.gitRepositoryURL = some (so, o, r) ∧
        '.' ∉ c.w.name ∧ '.' ∉ c.w.nspace) →
      runFrom provider gen (some ts) calls = some ts' →
      RepoInv so o r ts' ∧ ts'.length = ts.length + 2 * calls.length := by
  intro calls
  induction calls with
  | nil =>
    intro ts ts' hInv _ hr
    obtain rfl : ts = ts' := by simpa [runFrom] using hr
    simpa using hInv
  | cons c rest ih =>
    intro ts ts' hInv hall hr
    rw [runFrom, Option.some_bind] at hr
    cases he : elRegister provider gen c ts with
    | none => rw [he] at hr; rw [runFrom_none] at hr; exact absurd hr (by simp)
    | some ts1 =>
      rw [he] at hr
      obtain ⟨h1, h2, h3⟩ := hall c (List.mem_cons_self _ _)
      obtain ⟨hInv1, hlen1⟩ := elRegister_inv provider gen c ts ts1 so o r hInv h1 h2 h3 he
      obtain ⟨hInv2, hlen2⟩ := ih ts1 ts' hInv1
        (fun d hd => hall d (List.mem_cons_of_mem _ hd)) hr
      refine ⟨hInv2, ?_⟩
      rw [hlen2, hlen1]
      simp [List.length_cons]
      ring

/-- C1: after any serialized sequence of successful create operations all
against the same repository identity (every URL parsing to the same
`(server, owner, repo)` triple; registration names and namespaces contain no
dot, as Kubernetes resource name segments do), the resulting collection holds
exactly one trigger carrying the repository's monitor-name stem, and its
length is `2·N + 1`: the first create adds the single monitor and every later
create appends only its push and pull-request triggers. -/
theorem C1_single_monitor (provider : Str → Option Str) (gen : Str → Str)
    (calls : List CreateCall) (so o r : Str) (ts : List Trigger)
    (hne : calls ≠ [])
    (hall : ∀ c ∈ calls, getGitValues c.w.gitRepositoryURL = some (so, o, r) ∧
      '.' ∉ c.w.name ∧ '.' ∉ c.w.nspace)
    (hrun : runCreates provider gen calls = some ts) :
    ts.countP (isMonitorFor o r) = 1 ∧ ts.length = 2 * calls.length + 1 := by
  cases calls with
  | nil => exact absurd rfl hne
  | cons c rest =>
    unfold runCreates at hrun
    rw [runFrom, Option.some_bind] at hrun
    cases he : elRegister provider gen c [] with
    | none => rw [he] at hrun; rw [runFrom_none] at hrun; exact absurd hrun (by simp)
    | some ts1 =>
      rw [he] at hrun
      obtain ⟨h1, h2, h3⟩ := hall c (List.mem_cons_self _ _)
      obtain ⟨hInv1, hlen1⟩ := elRegister_base provider gen c ts1 so o r h1 h2 h3 he
      obtain ⟨hInv2, hlen2⟩ := runFrom_inv provider gen so o r rest ts1 ts hInv1
        (fun d hd => hall d (List.mem_cons_of_mem _ hd)) hrun
      refine ⟨hInv2.1, ?_⟩
      rw [hlen2, hlen1]
      simp [List.length_cons]
      ring

/-- C1 witness: two serialized creates for the same repository leave exactly
one monitor-stem trigger among the five triggers. -/
theorem C1_single_monitor_witness :
    ((runCreates (fun _ => some (str "github")) (fun s => s)
        [⟨⟨str "a", str "x", str "p", str "https://g.com/o/r", str "t", str "monitor-task", []⟩,
          (fun _ => 7), 1⟩,
         ⟨⟨str "b", str "x", str "q", str "https://g.com/o/r", str "t", str "monitor-task", []⟩,
          (fun _ => 7), 1⟩]).map
      (fun ts => (ts.countP (isMonitorFor (str "o") (str "r")), ts.length)))
      = some (1, 5) := by
  cases hrun : runCreates (fun _ => some (str "github")) (fun s => s)
      [⟨⟨str "a", str "x", str "p", str "https://g.com/o/r", str "t", str "monitor-task", []⟩,
        (fun _ => 7), 1⟩,
       ⟨⟨str "b", str "x", str "q", str "https://g.com/o/r", str "t", str "monitor-task", []⟩,
        (fun _ => 7), 1⟩] with
  | none => exact absurd hrun (by decide)
  | some ts =>
    have h := C1_single_monitor (fun _ => some (str "github")) (fun s => s)
      [⟨⟨str "a", str "x", str "p", str "https://g.com/o/r", str "t", str "monitor-task", []⟩,
        (fun _ => 7), 1⟩,
       ⟨⟨str "b", str "x", str "q", str "https://g.com/o/r", str "t", str "monitor-task", []⟩,
        (fun _ => 7), 1⟩]
      (str "https://g.com") (str "o") (str "r") ts
      (List.cons_ne_nil _ _) (by decide) hrun
    simp [h.1, h.2]
